import Mathlib

/-!
# Verification of the sdstatus scan core (src/main.go)

Shallow embedding of the concurrent scan orchestrator of the `sdstatus`
tool: the probe (`checkStatus`), the orchestrator (`runScan`), the
address-keyed target map built by the `scan` command, and the two
renderers (JSON via `encoding/json.MarshalIndent`, CSV via
`gocsv.Marshal` driven by the struct's `csv:` tags).

Network behaviour is an explicit oracle (`HttpResponse`): each probe is a
pure function of its target and the response the network gives it, exactly
mirroring the branch structure of the Go code. The concurrent fan-out of
`runScan` (one goroutine per target, a WaitGroup barrier, a buffered
results channel drained after the barrier) delivers exactly one result per
goroutine in some arrival order; we model the batch as the list of results
in one such order. A goroutine that panics crashes the whole program, so
the collection step is `Option`-valued: `none` models the crash.
-/

namespace SdStatus

/-- Struct `SecureDropMetadata` (src/main.go:35-39): the decoded `/metadata`
response. `SupportedLanguages` is a `[]string`. -/
structure SecureDropMetadata where
  Version : String
  Fingerprint : String
  SupportedLanguages : List String
deriving Repr, DecidableEq

/-- The Go zero value of `SecureDropMetadata` (a fresh `var md`). The zero
of a slice is nil, which we identify with the empty list. -/
def SecureDropMetadata.zero : SecureDropMetadata :=
  { Version := "", Fingerprint := "", SupportedLanguages := [] }

/-- Struct `ScanResult` (src/main.go:42-48): the outcome of probing one target. -/
structure ScanResult where
  Title : String
  Url : String
  Available : Bool
  Error : String
  Metadata : SecureDropMetadata
deriving Repr, DecidableEq

/-- Struct `SecureDrop`: the target record. Its declaration lives outside
src/main.go (in the directory-acquisition file), but its two fields are
fixed by every use in src/main.go (`sd.Title`, `sd.OnionAddress`,
src/main.go:55,59,201) and by the spec's `ScanTarget {Title, Address}`. -/
structure SecureDrop where
  OnionAddress : String
  Title : String
deriving Repr, DecidableEq

/-- What `json.Unmarshal(body, &md)` did to the zero-initialised `md`
(src/main.go:83-84). On error the partially-filled value (possibly still
zero) is kept, because the returned error is discarded by the code. -/
inductive DecodeOutcome where
  /-- Unmarshal returned nil: `md` holds the decoded metadata. -/
  | ok (md : SecureDropMetadata)
  /-- Unmarshal returned a non-nil error: `md` holds whatever fields were
  filled before the error (the zero value for a body that is not JSON). -/
  | malformed (filled : SecureDropMetadata)
deriving Repr, DecidableEq

/-- Outcome of `ioutil.ReadAll(response.Body)` followed by the decode
(src/main.go:76-84), for a response whose body was reachable. -/
inductive BodyRead where
  /-- Call `ReadAll` failed; the argument is `err.Error()`. -/
  | readErr (msg : String)
  /-- Call `ReadAll` succeeded; the decode outcome of the bytes follows. -/
  | bytes (decoded : DecodeOutcome)
deriving Repr, DecidableEq

/-- Outcome of `client.Get(metadataURL)` (src/main.go:61) as one probe
observes it: either a non-nil transport error, or a response carrying a
status code and a readable body. -/
inductive HttpResponse where
  /-- Case `err != nil`; the argument is `err.Error()`. -/
  | err (msg : String)
  /-- Case `err == nil`: a response with its status code and body. -/
  | resp (statusCode : Nat) (body : BodyRead)
deriving Repr, DecidableEq

/-- What one `checkStatus` goroutine does: either it sends one
`ScanResult` on the results channel, or it panics (a panic in any
goroutine crashes the whole program). -/
inductive ProbeOutcome where
  | result (r : ScanResult)
  | panic
deriving Repr, DecidableEq

/-- Function `checkStatus` (src/main.go:51-92), as a pure function of the target
and the network's response to the single GET it issues.

Branches, in source order:
* `client.Get` returned `err != nil` → `Available=false`,
  `Error=err.Error()` (src/main.go:62-73);
* `err == nil` but `response.StatusCode != 200` → the code logs a status
  message but then executes `result.Error = err.Error()` with `err == nil`
  (src/main.go:72): a nil-interface dereference, i.e. a runtime panic;
* body read fails → `Available=false`, `Error=err.Error()`
  (src/main.go:78-81);
* body read succeeds → `json.Unmarshal`'s error is discarded
  (src/main.go:84) and the probe reports `Available=true` with whatever
  `md` holds (src/main.go:86-88). -/
def checkStatus (sd : SecureDrop) (net : HttpResponse) : ProbeOutcome :=
  let base : ScanResult :=
    { Title := sd.Title
      Url := "http://" ++ sd.OnionAddress ++ "/metadata"
      Available := false
      Error := ""
      Metadata := SecureDropMetadata.zero }
  match net with
  | .err msg => .result { base with Available := false, Error := msg }
  | .resp statusCode body =>
    if statusCode ≠ 200 then
      -- result.Error = err.Error() with err == nil: panic
      .panic
    else
      match body with
      | .readErr msg => .result { base with Available := false, Error := msg }
      | .bytes (.ok md) => .result { base with Available := true, Metadata := md }
      | .bytes (.malformed filled) =>
          .result { base with Available := true, Metadata := filled }

/-- The result-collection phase of `runScan` (src/main.go:102-122): one
goroutine per target, a WaitGroup barrier, then the buffered results
channel is drained into `resultList`. Exactly one result arrives per
goroutine; we take the batch in one arrival order. If any goroutine
panics the program crashes before the barrier is passed: `none`.

The input pairs each target with the network's response to its probe. -/
def collectResults (probes : List (SecureDrop × HttpResponse)) :
    Option (List ScanResult) :=
  probes.mapM fun p =>
    match checkStatus p.1 p.2 with
    | .result r => some r
    | .panic => none

/-! ## The address-keyed target map built by the `scan` command -/

/-- One Go map assignment `m[k] = v` on a `map[string]SecureDrop`,
modelled on an association list: if the key is present its value is
replaced in place, otherwise the binding is appended. -/
def mapInsert (m : List (String × SecureDrop)) (k : String) (v : SecureDrop) :
    List (String × SecureDrop) :=
  if m.any (fun p => p.1 = k) then
    m.map fun p => if p.1 = k then (k, v) else p
  else
    m ++ [(k, v)]

/-- The `scan` command's accumulation of command-line targets into
`secureDrops` (src/main.go:197-202): for each `onion_url`,
`secureDrops[onion_url] = SecureDrop{OnionAddress: onion_url, Title: onion_url}`. -/
def buildSecureDrops (onionUrls : List String) : List (String × SecureDrop) :=
  onionUrls.foldl (fun m u => mapInsert m u ⟨u, u⟩) []

/-! ## JSON rendering (`encoding/json`) -/

/-- The fragment of Go's JSON value space these structs use. `null` is
what `encoding/json` emits for a nil slice — the zero value of
`SupportedLanguages` — and what `Unmarshal` maps back to nil. Our
`List String` does not distinguish Go's nil slice from a non-nil empty
one; we identify the empty list with nil, the only form the zero value
and an absent key ever produce. -/
inductive Json where
  | null
  | str (s : String)
  | bool (b : Bool)
  | arr (xs : List Json)
  | obj (fields : List (String × Json))

/-- A `[]string` as `json.Marshal` emits it: `null` for the nil (zero)
slice, an array of strings otherwise. -/
def stringListToJson (ls : List String) : Json :=
  match ls with
  | [] => .null
  | _ => .arr (ls.map .str)

/-- Output of `json.Marshal` on a `SecureDropMetadata` value: the three fields under
their `json:` tags, in struct field order (src/main.go:35-39). None of the
tags carries `omitempty`, so all keys are always emitted. -/
def SecureDropMetadata.toJson (m : SecureDropMetadata) : Json :=
  .obj [("sd_version", .str m.Version),
        ("gpg_fpr", .str m.Fingerprint),
        ("supported_languages", stringListToJson m.SupportedLanguages)]

/-- Output of `json.Marshal` on a `ScanResult` value: the five fields under their
`json:` tags, in struct field order (src/main.go:42-48). No `omitempty`:
all five keys are always emitted, `error` as an (possibly empty) string
and `metadata` as a full object even when zero. -/
def ScanResult.toJson (r : ScanResult) : Json :=
  .obj [("title", .str r.Title),
        ("url", .str r.Url),
        ("available", .bool r.Available),
        ("error", .str r.Error),
        ("metadata", r.Metadata.toJson)]

/-- The JSON document `runScan` marshals in batch mode
(src/main.go:127): the whole `resultList` as one array, in list order. -/
def renderJsonBatch (rs : List ScanResult) : Json :=
  .arr (rs.map ScanResult.toJson)

/-- Key lookup in a JSON object, as `json.Unmarshal` matches struct
fields to object keys (first match; our encoder never duplicates keys). -/
def Json.lookupKey (j : Json) (k : String) : Option Json :=
  match j with
  | .obj fields => fields.lookup k
  | _ => none

/-- Decode a string field the way `json.Unmarshal` fills a `string`
struct field: a missing key leaves the zero value `""`, a JSON string is
taken as is, any other shape is a type error. -/
def decodeStringField (j : Option Json) : Option String :=
  match j with
  | none => some ""
  | some (.str s) => some s
  | some _ => none

/-- Decode a bool field: missing key leaves `false`, a JSON bool is taken
as is, any other shape is a type error. -/
def decodeBoolField (j : Option Json) : Option Bool :=
  match j with
  | none => some false
  | some (.bool b) => some b
  | some _ => none

/-- Decode a `[]string` field: a missing key or JSON `null` leaves the
nil slice (our empty list), an array of strings is taken elementwise,
anything else is a type error. -/
def decodeStringListField (j : Option Json) : Option (List String) :=
  match j with
  | none => some []
  | some .null => some []
  | some (.arr xs) =>
      xs.mapM fun x =>
        match x with
        | .str s => some s
        | _ => none
  | some _ => none

/-- Decoding by `json.Unmarshal` into a `SecureDropMetadata` (the `metadata` field of
a decoded `ScanResult`, src/main.go:256-258 via the struct tags). -/
def SecureDropMetadata.fromJson (j : Json) : Option SecureDropMetadata :=
  match j with
  | .obj _ => do
      let v ← decodeStringField (j.lookupKey "sd_version")
      let f ← decodeStringField (j.lookupKey "gpg_fpr")
      let ls ← decodeStringListField (j.lookupKey "supported_languages")
      pure { Version := v, Fingerprint := f, SupportedLanguages := ls }
  | _ => none

/-- Decoding by `json.Unmarshal` into a `ScanResult`, by the `json:` tags of
src/main.go:42-48 (as the `l10n` command does at src/main.go:256-258). -/
def ScanResult.fromJson (j : Json) : Option ScanResult :=
  match j with
  | .obj _ => do
      let t ← decodeStringField (j.lookupKey "title")
      let u ← decodeStringField (j.lookupKey "url")
      let a ← decodeBoolField (j.lookupKey "available")
      let e ← decodeStringField (j.lookupKey "error")
      let m ←
        match j.lookupKey "metadata" with
        | none => some SecureDropMetadata.zero
        | some mj => SecureDropMetadata.fromJson mj
      pure { Title := t, Url := u, Available := a, Error := e, Metadata := m }
  | _ => none

/-- Decoding by `json.Unmarshal` of a scan's JSON document into `[]ScanResult`
(src/main.go:256-258): the document must be an array, decoded
elementwise. -/
def decodeJsonBatch (j : Json) : Option (List ScanResult) :=
  match j with
  | .arr xs => xs.mapM ScanResult.fromJson
  | _ => none

/-! ## JSON text output (`json.MarshalIndent(resultList, "", "  ")`) -/

/-- Lower-case hex digit, for control-character escapes. -/
def hexDigit (n : Nat) : Char :=
  if n < 10 then Char.ofNat (48 + n) else Char.ofNat (87 + n)

/-- Go's `encoding/json` string escaping: quote, backslash, the three
named control escapes, HTML-unsafe characters as `\u00xx` (the encoder's
default `SetEscapeHTML(true)`), and remaining control characters as
`\u00xx`. -/
def escapeJsonChar (c : Char) : String :=
  if c = '"' then "\\\""
  else if c = '\\' then "\\\\"
  else if c = '\n' then "\\n"
  else if c = '\r' then "\\r"
  else if c = '\t' then "\\t"
  else if c = '<' then "\\u003c"
  else if c = '>' then "\\u003e"
  else if c = '&' then "\\u0026"
  else if c.toNat < 32 then
    "\\u00" ++ String.mk [hexDigit (c.toNat / 16), hexDigit (c.toNat % 16)]
  else String.singleton c

/-- Escape a whole string for a JSON string literal. -/
def escapeJsonString (s : String) : String :=
  String.join (s.toList.map escapeJsonChar)

/-- The string of `d` levels of the two-space indent `MarshalIndent` is called with. -/
def indentOf (d : Nat) : String :=
  String.join (List.replicate d "  ")

/-- A JSON string literal: quoted, with Go's escaping. -/
def renderStringLit (s : String) : String :=
  "\"" ++ escapeJsonString s ++ "\""

/-- A `[]string` value at nesting depth `d`, as `MarshalIndent` prints
it: `null` for the nil (zero) slice, otherwise each element on its own
line one level deeper, closing bracket back at depth `d`. -/
def renderStringListIndent (d : Nat) (ls : List String) : String :=
  match ls with
  | [] => "null"
  | _ =>
      "[\n"
        ++ String.intercalate ",\n"
          (ls.map fun s => indentOf (d + 1) ++ renderStringLit s)
        ++ "\n" ++ indentOf d ++ "]"

/-- A `SecureDropMetadata` object at nesting depth `d`, as
`MarshalIndent` prints it: the three tagged fields in struct order, one
per line at depth `d + 1`. -/
def renderMetadataIndent (d : Nat) (m : SecureDropMetadata) : String :=
  "\x7b\n"
    ++ indentOf (d + 1) ++ "\"sd_version\": " ++ renderStringLit m.Version ++ ",\n"
    ++ indentOf (d + 1) ++ "\"gpg_fpr\": " ++ renderStringLit m.Fingerprint ++ ",\n"
    ++ indentOf (d + 1) ++ "\"supported_languages\": "
      ++ renderStringListIndent (d + 1) m.SupportedLanguages ++ "\n"
    ++ indentOf d ++ "\x7d"

/-- A `ScanResult` object at nesting depth `d`, as `MarshalIndent`
prints it: the five tagged fields in struct order, one per line at depth
`d + 1`, the bool as `true`/`false`. -/
def renderScanResultIndent (d : Nat) (r : ScanResult) : String :=
  "\x7b\n"
    ++ indentOf (d + 1) ++ "\"title\": " ++ renderStringLit r.Title ++ ",\n"
    ++ indentOf (d + 1) ++ "\"url\": " ++ renderStringLit r.Url ++ ",\n"
    ++ indentOf (d + 1) ++ "\"available\": "
      ++ (if r.Available then "true" else "false") ++ ",\n"
    ++ indentOf (d + 1) ++ "\"error\": " ++ renderStringLit r.Error ++ ",\n"
    ++ indentOf (d + 1) ++ "\"metadata\": "
      ++ renderMetadataIndent (d + 1) r.Metadata ++ "\n"
    ++ indentOf d ++ "\x7d"

/-- The exact string `runScan` writes in JSON batch mode
(src/main.go:127-129): `json.MarshalIndent(resultList, "", "  ")`.
`resultList` is created non-nil (`make([]ScanResult, 0)`,
src/main.go:103), so the empty batch prints `[]`, not `null`. -/
def renderJsonString (rs : List ScanResult) : String :=
  match rs with
  | [] => "[]"
  | _ =>
      "[\n"
        ++ String.intercalate ",\n"
          (rs.map fun r => indentOf 1 ++ renderScanResultIndent 1 r)
        ++ "\n]"

/-- The sequence of `title` values of a rendered batch document, in
emission order. -/
def jsonBatchTitles (j : Json) : List String :=
  match j with
  | .arr xs =>
      xs.filterMap fun x =>
        match x.lookupKey "title" with
        | some (.str t) => some t
        | _ => none
  | _ => []

/-- The list of keys of a JSON object, in emission order. -/
def Json.objKeys (j : Json) : List String :=
  match j with
  | .obj fields => fields.map Prod.fst
  | _ => []

/-! ## CSV output (`gocsv.Marshal(&resultList, output)`) -/

/-- The CSV header, from the `csv:` tags of `ScanResult`
(src/main.go:42-48) in struct field order. `Metadata` is tagged
`csv:"-"`, which excludes it (and so the version, fingerprint and
language fields) from CSV output entirely. -/
def csvHeaderFields : List String := ["title", "url", "available", "error"]

/-- Go `encoding/csv` field quoting: a field containing a comma, quote, CR
or LF is wrapped in quotes with inner quotes doubled; otherwise it is
written bare. -/
def csvEscapeField (s : String) : String :=
  if s.toList.any fun c => c = ',' ∨ c = '"' ∨ c = '\n' ∨ c = '\r' then
    "\"" ++ String.join (s.toList.map fun c =>
      if c = '"' then "\"\"" else String.singleton c) ++ "\""
  else s

/-- The CSV record `gocsv` emits for one `ScanResult`: the four
non-excluded fields in struct order, the bool as `true`/`false`. A result
with `Available = false` produces a record like any other. -/
def ScanResult.csvRecord (r : ScanResult) : List String :=
  [r.Title, r.Url, if r.Available then "true" else "false", r.Error]

/-- The data records of the CSV document, one per result, in list order. -/
def csvRecords (rs : List ScanResult) : List (List String) :=
  rs.map ScanResult.csvRecord

/-- One CSV line: comma-joined escaped fields, newline-terminated. -/
def csvLine (fields : List String) : String :=
  String.intercalate "," (fields.map csvEscapeField) ++ "\n"

/-- The full CSV document `gocsv.Marshal` writes: header line (emitted
even for an empty slice) followed by one line per result. -/
def renderCsv (rs : List ScanResult) : String :=
  csvLine csvHeaderFields ++ String.join ((csvRecords rs).map csvLine)

/-! ## `runScan` as a whole -/

/-- The externally observable effect of one `runScan` call. -/
structure RunScanEffect where
  /-- The bytes written to the `output` writer. -/
  written : String
  /-- The error, if any, that `runScan` surfaces to its caller. The Go
  function returns nothing (src/main.go:102), so no path can produce one. -/
  callerError : Option String
deriving Repr, DecidableEq

/-- Function `runScan` (src/main.go:102-135) end to end: collect one result per
target (`none` = a probe panicked and the program crashed), then render.
`sinkFails` models an unwritable `output` sink.

Error handling as in the source: `gocsv.Marshal`'s returned error
(src/main.go:125) and `io.WriteString`'s (src/main.go:129) are both
discarded; `json.MarshalIndent`'s error branch (src/main.go:130-131) only
logs, and is in fact unreachable for `[]ScanResult` (strings, a bool and
a string slice cannot fail to marshal). On every path `runScan` simply
returns, so `callerError` is `none` throughout. -/
def runScan (probes : List (SecureDrop × HttpResponse)) (format : String)
    (sinkFails : Bool) : Option RunScanEffect :=
  (collectResults probes).map fun resultList =>
    if format = "csv" then
      { written := if sinkFails then "" else renderCsv resultList
        callerError := none }
    else
      { written := if sinkFails then "" else renderJsonString resultList
        callerError := none }

/-! ## Concrete fixtures (the spec's §8 scenario targets) -/

/-- Target "A" at `a.test`. -/
def sdA : SecureDrop := { OnionAddress := "a.test", Title := "A" }

/-- Target "B" at `b.test`. -/
def sdB : SecureDrop := { OnionAddress := "b.test", Title := "B" }

/-- The §8 sample metadata document. -/
def mdEx : SecureDropMetadata :=
  { Version := "0.6", Fingerprint := "ABC123", SupportedLanguages := ["en"] }

/-- A fully successful response: status 200, body decodes to `mdEx`. -/
def netOkEx : HttpResponse := .resp 200 (.bytes (.ok mdEx))

/-- A refused connection: `client.Get` returns a non-nil error. -/
def netRefusedEx : HttpResponse := .err "connection refused"

/-- The result `checkStatus sdA netOkEx` produces. -/
def rOkA : ScanResult :=
  { Title := "A", Url := "http://a.test/metadata", Available := true,
    Error := "", Metadata := mdEx }

/-- The result `checkStatus sdB netRefusedEx` produces. -/
def rFailB : ScanResult :=
  { Title := "B", Url := "http://b.test/metadata", Available := false,
    Error := "connection refused", Metadata := SecureDropMetadata.zero }

/-- Whether `client.Get` came back with `err == nil`, status 200 and a
readable body — the exact condition under which `checkStatus` reports
availability. -/
def httpOk (net : HttpResponse) : Bool :=
  match net with
  | .resp 200 (.bytes _) => true
  | _ => false

/-! ## Theorems -/

/-- C1: the probe does NOT capture every failure mode into the returned
`ScanResult`. On a response with `err == nil` and a status code other
than 200 (here: a 404 whose body would even decode fine), `checkStatus`
executes `result.Error = err.Error()` with `err == nil`
(src/main.go:72) — a nil-interface dereference that panics the goroutine
and crashes the whole program, escalating an ordinary per-target failure
to a batch-level failure. The code's own intent is visible one line up:
it formats a status-text error message for exactly this case
(src/main.go:67) and then never stores it. -/
theorem checkStatus_non200_panics :
    checkStatus sdA (.resp 404 (.bytes (.ok SecureDropMetadata.zero))) =
      .panic := rfl

/-- C2 counterexample: with status 200 and a body on which
`json.Unmarshal` fails leaving `md` zero (e.g. a body that is not JSON),
`checkStatus` still returns `Available = true` with zero-value
`Metadata`, because the Unmarshal error is discarded (src/main.go:84).
So a response body that fails to decode into `Metadata` does yield a
result with `Available:true`, contradicting the claim. -/
theorem decode_failure_still_available :
    checkStatus sdA (.resp 200 (.bytes (.malformed SecureDropMetadata.zero))) =
      .result { Title := "A", Url := "http://a.test/metadata",
                Available := true, Error := "",
                Metadata := SecureDropMetadata.zero } := rfl

/-- C2 amended: for every probe result, `Available = true` iff the GET
returned with `err == nil`, status 200 and a readable body — structural
validity of the decoded `Metadata` plays no part, since the decode error
is discarded. `Available = true` implies `Error` is empty, and
`Available = false` implies `Metadata` is the zero value. -/
theorem available_iff_http_ok (sd : SecureDrop) (net : HttpResponse)
    (r : ScanResult) (h : checkStatus sd net = .result r) :
    r.Available = httpOk net ∧
    (r.Available = true → r.Error = "") ∧
    (r.Available = false → r.Metadata = SecureDropMetadata.zero) := by
  cases net with
  | err msg =>
      simp only [checkStatus, ProbeOutcome.result.injEq] at h
      subst h
      refine ⟨rfl, ?_, ?_⟩ <;> simp [httpOk]
  | resp statusCode body =>
      by_cases hc : statusCode = 200
      · subst hc
        cases body with
        | readErr msg =>
            simp only [checkStatus, if_neg, ne_eq, not_true_eq_false,
              ProbeOutcome.result.injEq, reduceIte] at h
            subst h
            refine ⟨rfl, ?_, ?_⟩ <;> simp [httpOk]
        | bytes decoded =>
            cases decoded with
            | ok md =>
                simp only [checkStatus, ne_eq, not_true_eq_false,
                  ProbeOutcome.result.injEq, reduceIte] at h
                subst h
                refine ⟨rfl, ?_, ?_⟩ <;> simp [httpOk]
            | malformed filled =>
                simp only [checkStatus, ne_eq, not_true_eq_false,
                  ProbeOutcome.result.injEq, reduceIte] at h
                subst h
                refine ⟨rfl, ?_, ?_⟩ <;> simp [httpOk]
      · exfalso
        simp only [checkStatus, ne_eq, hc, not_false_eq_true, if_true] at h
        exact ProbeOutcome.noConfusion h

/-- C2 amended, witnessed at the refused-connection fixture. -/
theorem available_iff_http_ok_witness :
    rFailB.Available = httpOk netRefusedEx ∧
    (rFailB.Available = true → rFailB.Error = "") ∧
    (rFailB.Available = false → rFailB.Metadata = SecureDropMetadata.zero) :=
  available_iff_http_ok sdB netRefusedEx rFailB rfl

/-- C3: whenever the collection phase of `runScan` completes (no probe
panicked), the batch holds exactly one `ScanResult` per launched probe:
`len(results) == len(targets)`, for any mix of succeeding and failing
probes. Each goroutine sends exactly one result on the buffered channel,
the WaitGroup barrier is passed only after all have, and the drain loop
appends each exactly once. -/
theorem collectResults_length (probes : List (SecureDrop × HttpResponse))
    (out : List ScanResult) (h : collectResults probes = some out) :
    out.length = probes.length := by
  induction probes generalizing out with
  | nil =>
      simp only [collectResults, List.mapM_nil, Option.pure_def,
        Option.some.injEq] at h
      simp [← h]
  | cons p ps ih =>
      simp only [collectResults, List.mapM_cons, Option.pure_def,
        Option.bind_eq_bind, Option.bind_eq_some, Option.some.injEq] at h
      obtain ⟨r, _, rest, hrest, hout⟩ := h
      subst hout
      have := ih rest (by simpa [collectResults] using hrest)
      simp [this]

/-- C3, witnessed on a two-target batch with one success and one
failure. -/
theorem collectResults_length_witness :
    [rOkA, rFailB].length = [(sdA, netOkEx), (sdB, netRefusedEx)].length :=
  collectResults_length [(sdA, netOkEx), (sdB, netRefusedEx)] [rOkA, rFailB] rfl

/-- In the batch document, each result object exposes its `title` field. -/
theorem lookupKey_title (r : ScanResult) :
    (ScanResult.toJson r).lookupKey "title" = some (.str r.Title) := rfl

/-- C4 counterexample: `runScan` never sorts (there is no sort between
collection and marshalling, src/main.go:116-133). A batch collected in
arrival order `[B, A]` is rendered with its titles in that order, which
is not sorted by `Title`; and the same two results arriving in the other
order render to different bytes, so two renders of the same batch are
not byte-identical. -/
theorem render_not_sorted_by_title :
    jsonBatchTitles (renderJsonBatch [rFailB, rOkA]) = ["B", "A"] ∧
    ¬ List.Sorted (· ≤ ·) (jsonBatchTitles (renderJsonBatch [rFailB, rOkA])) ∧
    renderJsonString [rFailB, rOkA] ≠ renderJsonString [rOkA, rFailB] := by
  refine ⟨rfl, ?_, ?_⟩
  · intro hs
    rw [show jsonBatchTitles (renderJsonBatch [rFailB, rOkA]) = ["B", "A"]
      from rfl] at hs
    have hba : ("B" : String) ≤ "A" :=
      List.rel_of_sorted_cons hs _ (by simp)
    exact absurd hba (not_le.mpr (by rw [String.lt_iff_toList_lt]; decide))
  · decide

/-- C4 amended: batch-mode rendering emits the results in collection
(channel-arrival) order — the title sequence of the document equals the
title sequence of the collected list. Rendering is deterministic as a
function of the collected list, but no ordering by `Title` is imposed,
so output is only reproducible up to arrival order. -/
theorem render_emits_collection_order (rs : List ScanResult) :
    jsonBatchTitles (renderJsonBatch rs) = rs.map ScanResult.Title := by
  induction rs with
  | nil => rfl
  | cons r rs ih =>
      have hstep : jsonBatchTitles (renderJsonBatch (r :: rs)) =
          r.Title :: jsonBatchTitles (renderJsonBatch rs) := rfl
      rw [hstep, ih, List.map_cons]

/-- C5 counterexample: with an unwritable sink (the spec's own
render-fatal example), `runScan` writes nothing — the whole batch is
silently dropped from the output — and still surfaces no error to its
caller, in either format: `gocsv.Marshal`'s and `io.WriteString`'s
returned errors are discarded (src/main.go:125,129) and `runScan`
returns nothing. -/
theorem render_failure_not_surfaced :
    runScan [(sdA, netOkEx)] "json" true =
      some { written := "", callerError := none } ∧
    runScan [(sdA, netOkEx)] "csv" true =
      some { written := "", callerError := none } := ⟨rfl, rfl⟩

/-- C5 amended: no `runScan` execution surfaces any error to the caller,
serialization/write failures included — the function returns nothing,
render errors are discarded or only logged, so a render failure is
indistinguishable from success for the caller (only per-result
availability failures are reported, as data). -/
theorem runScan_never_surfaces_error (probes : List (SecureDrop × HttpResponse))
    (format : String) (sinkFails : Bool) (e : RunScanEffect)
    (h : runScan probes format sinkFails = some e) : e.callerError = none := by
  simp only [runScan, Option.map_eq_some'] at h
  obtain ⟨rl, -, he⟩ := h
  rw [← he]
  split <;> rfl

/-- C5 amended, witnessed at a failing JSON-mode sink. -/
theorem runScan_never_surfaces_error_witness :
    ({ written := "", callerError := none } : RunScanEffect).callerError = none :=
  runScan_never_surfaces_error [(sdA, netOkEx)] "json" true
    { written := "", callerError := none } rfl

/-- C6 counterexample: the CSV column set does not include the version or
fingerprint. `Metadata` is tagged `csv:"-"` (src/main.go:47), so for an
available result whose metadata carries version `"0.6"` and fingerprint
`"ABC123"`, neither value appears anywhere in its CSV record, and the
header has no metadata columns. -/
theorem csv_lacks_metadata_columns :
    rOkA.Metadata.Version = "0.6" ∧ rOkA.Metadata.Fingerprint = "ABC123" ∧
    "sd_version" ∉ csvHeaderFields ∧ "gpg_fpr" ∉ csvHeaderFields ∧
    "0.6" ∉ rOkA.csvRecord ∧ "ABC123" ∉ rOkA.csvRecord := by decide

/-- C6 amended: CSV rendering produces exactly one data record per
result — an unavailable result exactly like an available one, so the
data-row count always equals the result count — with the fixed column
set `title,url,available,error` (matching the header width); version and
fingerprint are excluded from CSV by the `csv:"-"` tag on `Metadata`. -/
theorem csv_one_row_per_result (rs : List ScanResult) :
    (csvRecords rs).length = rs.length ∧
    ∀ r : ScanResult, r.csvRecord.length = csvHeaderFields.length :=
  ⟨by simp [csvRecords], fun _ => rfl⟩

/-- Decoding an array of string literals recovers the strings. -/
theorem mapM_str_roundtrip (ls : List String) :
    (ls.map Json.str).mapM (fun x =>
      match x with
      | .str s => some s
      | _ => none) = some ls := by
  induction ls with
  | nil => rfl
  | cons s ls ih =>
      simp only [List.map_cons, List.mapM_cons, ih, Option.pure_def,
        Option.bind_eq_bind, Option.bind_some]
      rfl

/-- Decoding the JSON form of a `[]string` recovers it (`null` decodes
back to the nil slice). -/
theorem stringList_roundtrip (ls : List String) :
    decodeStringListField (some (stringListToJson ls)) = some ls := by
  match ls with
  | [] => rfl
  | s :: ls' =>
      show (((s :: ls').map Json.str).mapM fun x =>
        match x with
        | .str s => some s
        | _ => none) = some (s :: ls')
      exact mapM_str_roundtrip (s :: ls')

/-- Decoding the JSON form of a `SecureDropMetadata` recovers it field
by field. -/
theorem metadata_roundtrip (m : SecureDropMetadata) :
    SecureDropMetadata.fromJson m.toJson = some m := by
  show Option.bind (decodeStringListField (some (stringListToJson m.SupportedLanguages)))
      (fun ls => some { Version := m.Version, Fingerprint := m.Fingerprint,
                        SupportedLanguages := ls }) = some m
  rw [stringList_roundtrip]
  rfl

/-- Decoding the JSON form of a `ScanResult` recovers it field by
field. -/
theorem scanResult_roundtrip (r : ScanResult) :
    ScanResult.fromJson r.toJson = some r := by
  show Option.bind (SecureDropMetadata.fromJson r.Metadata.toJson)
      (fun m => some { Title := r.Title, Url := r.Url, Available := r.Available,
                       Error := r.Error, Metadata := m }) = some r
  rw [metadata_roundtrip]
  rfl

/-- C7: round-trip — marshalling a batch of `ScanResult` values to JSON
(the batch-mode document of src/main.go:127) and unmarshalling it back
(as the `l10n` command does, src/main.go:256-258) recovers every result,
field by field, `Metadata` substructure included. -/
theorem json_roundtrip (rs : List ScanResult) :
    decodeJsonBatch (renderJsonBatch rs) = some rs := by
  induction rs with
  | nil => rfl
  | cons r rs ih =>
      have ih' : (rs.map ScanResult.toJson).mapM ScanResult.fromJson = some rs := by
        simpa [decodeJsonBatch, renderJsonBatch] using ih
      simp only [decodeJsonBatch, renderJsonBatch, List.map_cons, List.mapM_cons,
        scanResult_roundtrip, ih', Option.pure_def, Option.bind_eq_bind,
        Option.bind_some]
      rfl

/-- C8: the empty target set yields an empty batch without error (no
probe runs, so nothing can panic), the JSON document is the valid empty
array `[]` (the batch slice is created non-nil, src/main.go:103), and
CSV output has zero data records — only the header line. -/
theorem empty_scan_empty_output :
    collectResults [] = some [] ∧
    renderJsonString [] = "[]" ∧
    csvRecords [] = [] ∧
    renderCsv [] = "title,url,available,error\n" := by
  refine ⟨rfl, rfl, rfl, ?_⟩
  decide

/-- If the Go map already has key `k`, assignment rewrites the value in
place: the key sequence is unchanged. -/
theorem mapInsert_map_fst_of_mem (m : List (String × SecureDrop)) (k : String)
    (v : SecureDrop) (h : m.any (fun p => p.1 = k)) :
    (mapInsert m k v).map Prod.fst = m.map Prod.fst := by
  simp only [mapInsert, if_pos h, List.map_map]
  refine List.map_congr_left fun p _ => ?_
  by_cases hpk : p.1 = k <;> simp [hpk]

/-- If the Go map lacks key `k`, assignment appends the binding: the key
sequence gains `k` at the end. -/
theorem mapInsert_map_fst_of_not_mem (m : List (String × SecureDrop)) (k : String)
    (v : SecureDrop) (h : ¬ m.any (fun p => p.1 = k)) :
    (mapInsert m k v).map Prod.fst = m.map Prod.fst ++ [k] := by
  simp only [mapInsert, if_neg h, List.map_append, List.map_cons, List.map_nil]

/-- Map assignment preserves distinctness of the keys. -/
theorem nodup_mapInsert (m : List (String × SecureDrop)) (k : String)
    (v : SecureDrop) (h : (m.map Prod.fst).Nodup) :
    ((mapInsert m k v).map Prod.fst).Nodup := by
  by_cases hk : m.any (fun p => p.1 = k)
  · rw [mapInsert_map_fst_of_mem m k v hk]; exact h
  · rw [mapInsert_map_fst_of_not_mem m k v hk]
    have hnk : k ∉ m.map Prod.fst := by
      simp only [List.any_eq_true, decide_eq_true_eq] at hk
      intro hmem
      rcases List.mem_map.mp hmem with ⟨p, hp, hpk⟩
      exact hk ⟨p, hp, hpk⟩
    simp only [List.nodup_append, h, List.nodup_cons, List.not_mem_nil,
      not_false_eq_true, List.nodup_nil, and_true, true_and]
    intro a ha hak
    simp only [List.mem_singleton] at hak
    exact hnk (hak ▸ ha)

/-- After map assignment the key set is the old key set plus `k`. -/
theorem mem_mapInsert_fst (m : List (String × SecureDrop)) (k : String)
    (v : SecureDrop) (u : String) :
    u ∈ (mapInsert m k v).map Prod.fst ↔ u ∈ m.map Prod.fst ∨ u = k := by
  by_cases hk : m.any (fun p => p.1 = k)
  · rw [mapInsert_map_fst_of_mem m k v hk]
    constructor
    · exact Or.inl
    · rintro (h | rfl)
      · exact h
      · simp only [List.any_eq_true, decide_eq_true_eq] at hk
        rcases hk with ⟨p, hp, hpk⟩
        exact List.mem_map.mpr ⟨p, hp, hpk⟩
  · rw [mapInsert_map_fst_of_not_mem m k v hk]
    simp [List.mem_append]

/-- The `scan` command's whole target-accumulation loop, generalized
over the starting map: keys stay distinct, and the final key set is the
starting keys plus all supplied addresses. -/
theorem buildLoop_keys (urls : List String) (m : List (String × SecureDrop))
    (h : (m.map Prod.fst).Nodup) :
    (((urls.foldl (fun acc u => mapInsert acc u ⟨u, u⟩) m).map Prod.fst).Nodup ∧
     ∀ u, u ∈ (urls.foldl (fun acc u => mapInsert acc u ⟨u, u⟩) m).map Prod.fst ↔
       u ∈ m.map Prod.fst ∨ u ∈ urls) := by
  induction urls generalizing m with
  | nil =>
      refine ⟨h, fun u => ?_⟩
      simp
  | cons a urls ih =>
      obtain ⟨hn, hm⟩ := ih (mapInsert m a ⟨a, a⟩) (nodup_mapInsert m a ⟨a, a⟩ h)
      refine ⟨hn, fun u => ?_⟩
      rw [List.foldl_cons, hm u, mem_mapInsert_fst]
      simp only [List.mem_cons]
      tauto

/-- C9 counterexample: supplying the same address twice yields ONE
result, not two. The `scan` command stores targets in a
`map[string]SecureDrop` keyed by address (src/main.go:197-201), so the
second occurrence overwrites the first, the orchestrator launches one
probe, and the batch has a single result. -/
theorem duplicate_address_one_result :
    (buildSecureDrops ["a.test", "a.test"]).length = 1 ∧
    (collectResults ((buildSecureDrops ["a.test", "a.test"]).map
      fun p => (p.2, netRefusedEx))).map List.length = some 1 := by decide

/-- C9 amended: duplicate addresses ARE deduplicated, by the `scan`
command's address-keyed map, before the orchestrator runs: the map's
keys are distinct, and a key is present exactly when it occurred among
the supplied addresses — so the orchestrator receives, and the batch
yields, one entry per distinct address. -/
theorem buildSecureDrops_dedups (urls : List String) :
    ((buildSecureDrops urls).map Prod.fst).Nodup ∧
    ∀ u, u ∈ (buildSecureDrops urls).map Prod.fst ↔ u ∈ urls := by
  obtain ⟨hn, hm⟩ := buildLoop_keys urls [] (by simp)
  refine ⟨hn, fun u => ?_⟩
  rw [buildSecureDrops, hm u]
  simp

/-- C10: every result object in the batch-mode JSON document carries all
five keys in struct order — none of the `json:` tags of `ScanResult`
(src/main.go:42-48) has `omitempty` — with `error` always a string (the
empty string for an available result) and `metadata` always a full
three-key object (its zero values for an unavailable result). -/
theorem json_all_keys_present (rs : List ScanResult) :
    renderJsonBatch rs = .arr (rs.map ScanResult.toJson) ∧
    ∀ r : ScanResult,
      (ScanResult.toJson r).objKeys =
        ["title", "url", "available", "error", "metadata"] ∧
      (ScanResult.toJson r).lookupKey "error" = some (.str r.Error) ∧
      (ScanResult.toJson r).lookupKey "metadata" =
        some (SecureDropMetadata.toJson r.Metadata) ∧
      (SecureDropMetadata.toJson r.Metadata).objKeys =
        ["sd_version", "gpg_fpr", "supported_languages"] :=
  ⟨rfl, fun _ => ⟨rfl, rfl, rfl, rfl⟩⟩

end SdStatus
